import Mathlib

/-!
Verification of the fall-detection pipeline wrapped inside
`falldetection_openpifpaf/show/painters.py`.

The file shallow-embeds the stateful kernel of `KeypointPainter` (lines
144-176 and 356-414 of `painters.py`): the per-frame fall-event
deduplication/counting loop, the previous-fallen-set bookkeeping, the frame
counter, and the snapshot (`ImgWriter.write`) invocations.  The collaborators
`core.CentroidTracker` and `core.FallDetector` are called through
`self.ct.update(...)` / `self.falls.update(...)`; their code lives in the
`core` module, which is not among the repository files given, so the per-frame
step below is parametrised by their outputs (`persons`, `fallen`) and the
theorems quantify over all possible collaborator outputs.  Where a claim is
decided by the missing `core` code itself, a definition explicitly marked
`Modelled from the spec:` reproduces the specified behaviour.

Python floats are embedded as `ℚ`; the embedded comparisons (`!= 0`, `< 5.0`)
are exact in the source and rounding plays no role in any property proved
here.
-/

/-- A bounding box `(x, y, w, h)` as carried around by `painters.py`. -/
abbrev Box4 : Type := ℚ × ℚ × ℚ × ℚ

/-- The 6-tuple `(mid_x, mid_y, x_, y_, w_, h_)` stored into `self.centroid`
by `KeypointPainter._draw_skeleton` (line 201) and collected into the
`centroids` list of `KeypointPainter.annotations` (line 388). -/
abbrev Cent6 : Type := ℚ × ℚ × ℚ × ℚ × ℚ × ℚ

/-- The tracker output `self.persons`: an ordered mapping id → 6-tuple, the
`OrderedDict` returned by `self.ct.update(centroids, fps)` (line 390),
embedded as an association list in insertion order. -/
abbrev Persons : Type := List (Nat × Cent6)

/-- The classifier output `self.fallen`: ordered mapping id → bbox, the
`OrderedDict` returned by `self.falls.update(...)` (line 396), embedded as an
association list in insertion order. -/
abbrev Fallen : Type := List (Nat × Box4)

/-- One call `self.imgwriter.write(stream, self.fallcount)` (line 406):
`triggerId` is the loop variable `ID` of the iteration that issued the call,
`stream` the stream identifier argument, `seq` the value of `self.fallcount`
passed (read after the `self.fallcount += 1` on line 402). -/
structure WriteEvent where
  triggerId : Nat
  stream : Nat
  seq : Nat
deriving DecidableEq, Repr

/-- The externally observable interactions of one `annotations` call: the
frame index handed to `self.falls.update` (line 396) and the snapshot-sink
calls issued (line 406), in program order. -/
structure StepTrace where
  classifierFrame : Nat
  writes : List WriteEvent
deriving DecidableEq, Repr

/-- The mutable state of `KeypointPainter` that the fall pipeline reads and
writes: `self.framecount`, `self.fallcount`, `self.persons`, `self.fallen`,
`self.prev_fallen` (lines 165-174). -/
structure PainterState where
  framecount : Nat
  fallcount : Nat
  persons : Persons
  fallen : Fallen
  prevFallen : Fallen
deriving Repr

/-- `KeypointPainter.__init__` (lines 165-174): `framecount = 0`,
`fallcount = 0`, and the three `OrderedDict()`s empty. -/
def initPainter : PainterState :=
  { framecount := 0, fallcount := 0, persons := [], fallen := [], prevFallen := [] }

/-- The loop of `KeypointPainter.annotations` lines 398-406: iterate over the
current fallen mapping; for each `ID` not a key of `self.prev_fallen`,
increment `self.fallcount` and call `self.imgwriter.write(stream,
self.fallcount)`.  Returns the final counter and the write calls issued, in
order.  (The `self._draw_box(...)` on line 399 is rendering and has no effect
on this state.) -/
def dedupLoop (stream : Nat) (prevKeys : List Nat) : Fallen → Nat → Nat × List WriteEvent
  | [], fc => (fc, [])
  | (ID, _) :: rest, fc =>
    if ID ∈ prevKeys then
      dedupLoop stream prevKeys rest fc
    else
      let r := dedupLoop stream prevKeys rest (fc + 1)
      (r.1, ⟨ID, stream, fc + 1⟩ :: r.2)

/-- The ids of the current fallen mapping that are not keys of the previous
fallen mapping, in iteration order: exactly the ids for which lines 401-406
fire. -/
def newlyFallenIds (prevKeys : List Nat) (fallen : Fallen) : List Nat :=
  (fallen.map Prod.fst).filter (fun ID => ID ∉ prevKeys)

/-- The snapshot calls the loop issues for a given list of newly fallen ids
when the counter starts at `fc`: the k-th call carries sequence number
`fc + k + 1`, the counter value right after its increment. -/
def snapshotCalls (stream : Nat) : Nat → List Nat → List WriteEvent
  | _, [] => []
  | fc, ID :: rest => ⟨ID, stream, fc + 1⟩ :: snapshotCalls stream (fc + 1) rest

/-- One call of `KeypointPainter.annotations` (lines 356-414), parametrised by
the outputs of the external collaborators: `persons` is what
`self.ct.update(centroids, fps)` returned (line 390) and `fallen` what
`self.falls.update(self.persons, self.framecount, fps)` returned (line 396).
The call runs the dedup loop against `self.prev_fallen`, then sets
`self.prev_fallen = self.fallen` (line 408) and `self.framecount += 1`
(line 412); it records the frame index passed to the classifier. -/
def annotationsStep (persons : Persons) (fallen : Fallen) (stream : Nat)
    (s : PainterState) : PainterState × StepTrace :=
  let r := dedupLoop stream (s.prevFallen.map Prod.fst) fallen s.fallcount
  ({ framecount := s.framecount + 1
     fallcount := r.1
     persons := persons
     fallen := fallen
     prevFallen := fallen },
   { classifierFrame := s.framecount, writes := r.2 })

/-- A sequence of `annotations` calls on one painter, each frame supplying the
collaborator outputs for that frame; returns the final state and the traces in
order. -/
def annotationsRun (stream : Nat) :
    List (Persons × Fallen) → PainterState → PainterState × List StepTrace
  | [], s => (s, [])
  | pf :: rest, s =>
    let r1 := annotationsStep pf.1 pf.2 stream s
    let r2 := annotationsRun stream rest r1.1
    (r2.1, r1.2 :: r2.2)

lemma snapshotCalls_map_triggerId (stream : Nat) :
    ∀ (fc : Nat) (l : List Nat),
      (snapshotCalls stream fc l).map WriteEvent.triggerId = l := by
  intro fc l
  induction l generalizing fc with
  | nil => rfl
  | cons ID rest ih => simp [snapshotCalls, ih]

lemma snapshotCalls_map_seq (stream : Nat) :
    ∀ (fc : Nat) (l : List Nat),
      (snapshotCalls stream fc l).map WriteEvent.seq
        = List.range' (fc + 1) l.length := by
  intro fc l
  induction l generalizing fc with
  | nil => rfl
  | cons ID rest ih => simp [snapshotCalls, ih, List.range'_succ]

/-- The dedup loop computed in closed form: the counter advances by the number
of newly fallen ids and the write calls are `snapshotCalls`. -/
lemma dedupLoop_eq (stream : Nat) (prevKeys : List Nat) :
    ∀ (fallen : Fallen) (fc : Nat),
      dedupLoop stream prevKeys fallen fc
        = (fc + (newlyFallenIds prevKeys fallen).length,
           snapshotCalls stream fc (newlyFallenIds prevKeys fallen)) := by
  intro fallen
  induction fallen with
  | nil => intro fc; simp [dedupLoop, newlyFallenIds, snapshotCalls]
  | cons p rest ih =>
    intro fc
    obtain ⟨ID, b⟩ := p
    by_cases h : ID ∈ prevKeys
    · simp [dedupLoop, newlyFallenIds, h, ih fc]
    · simp only [dedupLoop, if_neg h, ih (fc + 1)]
      simp [newlyFallenIds, h, snapshotCalls]
      omega

/-- One pose annotation as `KeypointPainter.annotation` reads it: `ann.data`
is a 17 x 3 array of COCO keypoints (rows `(x, y, v)`; indices 5 and 6 are the
shoulders), `ann.bbox()` the bounding box `(x, y, w, h)`. -/
structure Ann where
  kps : Fin 17 → ℚ × ℚ × ℚ
  box : Box4

/-- The shoulder-midpoint coordinate of `_draw_skeleton` (lines 182-198),
matching the `if`/`elif` chain exactly: one coordinate zero yields the other,
both nonzero yield the mean, both zero yield `0`. -/
def midCoord (a b : ℚ) : ℚ :=
  if a ≠ 0 ∧ b = 0 then a
  else if a = 0 ∧ b ≠ 0 then b
  else if a ≠ 0 ∧ b ≠ 0 then (a + b) / 2
  else 0

/-- The bbox widening of `KeypointPainter.annotation` (lines 449-454): a side
shorter than `5.0` is grown by `4.0` and recentred by `2.0`. -/
def adjustBox (b : Box4) : Box4 :=
  let x := if b.2.2.1 < 5 then b.1 - 2 else b.1
  let w := if b.2.2.1 < 5 then b.2.2.1 + 4 else b.2.2.1
  let y := if b.2.2.2 < 5 then b.2.1 - 2 else b.2.1
  let h := if b.2.2.2 < 5 then b.2.2.2 + 4 else b.2.2.2
  (x, y, w, h)

/-- What `self.centroid` holds after `self.annotation(ax, ann, ...)` inside
the loop of `KeypointPainter.annotations` (lines 360-388), with the class
flags at their defaults: `annotation` scales the keypoints by `xy_scale`
(lines 424-425), widens the bbox (lines 447-454) and calls `_draw_skeleton`
(line 459), which leaves the sentinel `-1` (embedded as `none`) when no
keypoint is visible (lines 179-180) or when the shoulder midpoint has a zero
coordinate (lines 200-203), and otherwise stores
`(mid_x, mid_y, x_, y_, w_, h_)`. -/
def skeletonCentroid (xyScale : ℚ) (a : Ann) : Option Cent6 :=
  let x : Fin 17 → ℚ := fun i => (a.kps i).1 * xyScale
  let y : Fin 17 → ℚ := fun i => (a.kps i).2.1 * xyScale
  let v : Fin 17 → ℚ := fun i => (a.kps i).2.2
  if ¬ ∃ i, 0 < v i then none
  else
    let b := adjustBox a.box
    let mx := midCoord (x 5) (x 6)
    let my := midCoord (y 5) (y 6)
    if mx ≠ 0 ∧ my ≠ 0 then some (mx, my, b.1, b.2.1, b.2.2.1, b.2.2.2)
    else none

/-- The `centroids` list built by the loop of `KeypointPainter.annotations`
(lines 358-388) and passed to `self.ct.update(centroids, fps)` (line 390):
each annotation contributes its skeleton centroid when one was computed. -/
def collectCentroids (xyScale : ℚ) (anns : List Ann) : List Cent6 :=
  anns.filterMap (skeletonCentroid xyScale)

/-- Modelled from the spec: `core.ImgWriter` (the `core` module is absent from
`src/`) per §7 — a snapshot-sink write failure "is logged/reported" and "must
not propagate"; `write` therefore returns normally whether the underlying
write succeeded or failed.  `sinkOk stream seq` reports whether the write at
sequence number `seq` succeeded; the dedup loop below is the loop of lines
398-406 with this fallible sink threaded through, recording the failed calls.
-/
def dedupLoopSink (sinkOk : Nat → Nat → Bool) (stream : Nat) (prevKeys : List Nat) :
    Fallen → Nat → Nat × List WriteEvent × List WriteEvent
  | [], fc => (fc, [], [])
  | (ID, _) :: rest, fc =>
    if ID ∈ prevKeys then
      dedupLoopSink sinkOk stream prevKeys rest fc
    else
      let w : WriteEvent := ⟨ID, stream, fc + 1⟩
      let r := dedupLoopSink sinkOk stream prevKeys rest (fc + 1)
      (r.1, w :: r.2.1, if sinkOk stream (fc + 1) then r.2.2 else w :: r.2.2)

/-- One `annotations` call with the fallible snapshot sink threaded through:
identical to `annotationsStep` except that each write call additionally
reports success or failure, failures being absorbed inside the modelled
`ImgWriter.write`.  Returns the new state, the trace, and the failed writes.
-/
def annotationsStepSink (sinkOk : Nat → Nat → Bool) (persons : Persons)
    (fallen : Fallen) (stream : Nat) (s : PainterState) :
    PainterState × StepTrace × List WriteEvent :=
  let r := dedupLoopSink sinkOk stream (s.prevFallen.map Prod.fst) fallen s.fallcount
  ({ framecount := s.framecount + 1
     fallcount := r.1
     persons := persons
     fallen := fallen
     prevFallen := fallen },
   { classifierFrame := s.framecount, writes := r.2.1 },
   r.2.2)

/-- Error raised when the per-frame call rejects its `fps` argument. -/
inductive FpsError where
  | nonPositive
deriving DecidableEq, Repr

/-- Modelled from the spec: `core.CentroidTracker.update` and
`core.FallDetector.update` (the `core` module is absent from `src/`) treat
`fps ≤ 0` as a configuration error per §7: the per-frame call fails fast,
before any of the painter's pipeline state is mutated.  (`ℚ` has no
non-finite values, so of the spec's "fps ≤ 0 or non-finite" only the sign
check is expressible.)  On a valid `fps` the call is `annotationsStep`. -/
def annotationsGuarded (persons : Persons) (fallen : Fallen) (stream : Nat)
    (fps : ℚ) (s : PainterState) : Except FpsError (PainterState × StepTrace) :=
  if fps ≤ 0 then Except.error FpsError.nonPositive
  else Except.ok (annotationsStep persons fallen stream s)

/-- Modelled from the spec: a live track of `core.CentroidTracker` (the `core`
module is absent from `src/`), §3/§4.1 — id, last observation (centroid +
bbox as the stored 6-tuple), and the consecutive missed-frame count. -/
structure Track where
  ID : Nat
  c6 : Cent6
  missed : Nat

/-- Modelled from the spec: the tracker's state — live tracks in creation
(ascending-id) order, and the next never-reused id (§3, §4.1). -/
structure CTState where
  tracks : List Track
  nextId : Nat

/-- Squared Euclidean distance between two centroids (§4.1 matches by
Euclidean distance; comparing squares is equivalent and keeps the model in
`ℚ`). -/
def dist2 (a b : ℚ × ℚ) : ℚ := (a.1 - b.1) ^ 2 + (a.2 - b.2) ^ 2

/-- The centroid point of a stored 6-tuple: its first two components. -/
def c6pos (o : Cent6) : ℚ × ℚ := (o.1, o.2.1)

/-- Modelled from the spec, §4.1: among the still-unmatched observations
(`none` marks one already taken), the index, squared distance and value of the
nearest one to centroid `c`; ties go to the first observation in input order.
-/
def bestObs (c : ℚ × ℚ) : List (Option Cent6) → Option (Nat × ℚ × Cent6)
  | [] => none
  | none :: rest => (bestObs c rest).map (fun r => (r.1 + 1, r.2))
  | some o :: rest =>
    let d0 := dist2 c (c6pos o)
    match bestObs c rest with
    | none => some (0, d0, o)
    | some (i, d, o') => if d0 ≤ d then some (0, d0, o) else some (i + 1, d, o')

/-- Modelled from the spec, §4.1: the greedy matching pass.  Tracks are
processed in ascending id order (their list order); each takes its nearest
still-unmatched observation when the squared distance is below `thresh2`, and
is then updated with that observation and `missed := 0`.  An unmatched track
gets `missed + 1` and is evicted once that exceeds `tol`.  Returns the
surviving tracks (in order) and the observation list with the matched ones
removed. -/
def trackPass (thresh2 : ℚ) (tol : Nat) :
    List Track → List (Option Cent6) → List Track × List (Option Cent6)
  | [], obs => ([], obs)
  | t :: ts, obs =>
    match bestObs (c6pos t.c6) obs with
    | some (i, d, o) =>
      if d < thresh2 then
        let r := trackPass thresh2 tol ts (obs.set i none)
        (⟨t.ID, o, 0⟩ :: r.1, r.2)
      else
        let r := trackPass thresh2 tol ts obs
        ((if t.missed + 1 ≤ tol then [⟨t.ID, t.c6, t.missed + 1⟩] else []) ++ r.1, r.2)
    | none =>
      let r := trackPass thresh2 tol ts obs
      ((if t.missed + 1 ≤ tol then [⟨t.ID, t.c6, t.missed + 1⟩] else []) ++ r.1, r.2)

/-- Modelled from the spec, §4.1: every observation left unmatched spawns a
new track with a freshly allocated, never-reused id. -/
def spawnTracks (nid : Nat) : List (Option Cent6) → List Track × Nat
  | [] => ([], nid)
  | none :: rest => spawnTracks nid rest
  | some o :: rest =>
    let r := spawnTracks (nid + 1) rest
    (⟨nid, o, 0⟩ :: r.1, r.2)

/-- Modelled from the spec: the tracker's tunable constants (§9 leaves them
open) — the squared acceptance distance and the missed tolerance as a
duration, converted to frames via `fps` (§4.1). -/
structure TrackerCfg where
  thresh2 : ℚ
  missedTolSec : ℚ

/-- Modelled from the spec, §4.1: the missed-frame tolerance in frames. -/
def tolFrames (cfg : TrackerCfg) (fps : ℚ) : Nat := (cfg.missedTolSec * fps).floor.toNat

/-- Modelled from the spec: `core.CentroidTracker.update(centroids, fps)`
(§4.1) — greedy matching pass, spawning of new tracks from unmatched
observations, and the output mapping id → stored observation in
insertion order. -/
def ctUpdate (cfg : TrackerCfg) (s : CTState) (obs : List Cent6) (fps : ℚ) :
    CTState × Persons :=
  let r := trackPass cfg.thresh2 (tolFrames cfg fps) s.tracks (obs.map some)
  let sp := spawnTracks s.nextId r.2
  let tracks' := r.1 ++ sp.1
  (⟨tracks', sp.2⟩, tracks'.map (fun t => (t.ID, t.c6)))

lemma dist2_self (a : ℚ × ℚ) : dist2 a a = 0 := by simp [dist2]

lemma dist2_nonneg (a b : ℚ × ℚ) : 0 ≤ dist2 a b :=
  add_nonneg (sq_nonneg _) (sq_nonneg _)

lemma bestObs_nonneg (c : ℚ × ℚ) :
    ∀ (obs : List (Option Cent6)) (i : Nat) (d : ℚ) (o : Cent6),
      bestObs c obs = some (i, d, o) → 0 ≤ d := by
  intro obs
  induction obs with
  | nil => intro i d o h; simp [bestObs] at h
  | cons hd rest ih =>
    intro i d o h
    rcases hd with _ | o0
    · rcases hb : bestObs c rest with _ | ⟨i', d', o'⟩
      · simp only [bestObs, hb, Option.map_none'] at h
        exact absurd h (by simp)
      · simp only [bestObs, hb, Option.map_some', Option.some.injEq,
          Prod.mk.injEq] at h
        obtain ⟨-, h2, -⟩ := h
        exact h2 ▸ ih _ _ _ hb
    · rcases hb : bestObs c rest with _ | ⟨i', d', o'⟩
      · simp only [bestObs, hb, Option.some.injEq, Prod.mk.injEq] at h
        obtain ⟨-, h2, -⟩ := h
        exact h2 ▸ dist2_nonneg _ _
      · simp only [bestObs, hb] at h
        by_cases hle : dist2 c (c6pos o0) ≤ d'
        · rw [if_pos hle] at h
          simp only [Option.some.injEq, Prod.mk.injEq] at h
          obtain ⟨-, h2, -⟩ := h
          exact h2 ▸ dist2_nonneg _ _
        · rw [if_neg hle] at h
          simp only [Option.some.injEq, Prod.mk.injEq] at h
          obtain ⟨-, h2, -⟩ := h
          exact h2 ▸ ih _ _ _ hb

lemma bestObs_cons_zero (c : ℚ × ℚ) (o : Cent6) (rest : List (Option Cent6))
    (h : dist2 c (c6pos o) = 0) :
    bestObs c (some o :: rest) = some (0, 0, o) := by
  rcases hb : bestObs c rest with _ | ⟨i', d', o'⟩
  · simp only [bestObs, hb, h]
  · have hd' : 0 ≤ d' := bestObs_nonneg c rest _ _ _ hb
    simp only [bestObs, hb, h]
    rw [if_pos hd']

lemma bestObs_replicate_none (c : ℚ × ℚ) :
    ∀ (n : Nat) (l : List (Option Cent6)),
      bestObs c (List.replicate n none ++ l)
        = (bestObs c l).map (fun r => (r.1 + n, r.2)) := by
  intro n
  induction n with
  | zero =>
    intro l
    simp only [List.replicate, List.nil_append]
    rcases bestObs c l with _ | ⟨i, d, o⟩ <;> simp
  | succ n ih =>
    intro l
    rcases hb : bestObs c l with _ | ⟨i, d, o⟩
    · simp [List.replicate_succ, bestObs, ih l, hb]
    · simp [List.replicate_succ, bestObs, ih l, hb]
      omega

lemma set_replicate_mid (n : Nat) (x : Option Cent6) (l : List (Option Cent6)) :
    (List.replicate n (none : Option Cent6) ++ x :: l).set n none
      = List.replicate (n + 1) (none : Option Cent6) ++ l := by
  induction n with
  | zero => simp
  | succ n ih =>
    simp only [List.replicate_succ, List.cons_append, List.set_cons_succ, ih]

/-- The greedy pass is a fixed point on a converged tracker: when every live
track's own last observation is replayed (in track order) and no track has
missed frames, each track re-matches its own observation at distance zero and
nothing is left unmatched. -/
lemma trackPass_fixed (thresh2 : ℚ) (tol : Nat) (h : 0 < thresh2) :
    ∀ (ts : List Track) (n : Nat), (∀ t ∈ ts, t.missed = 0) →
      trackPass thresh2 tol ts
          (List.replicate n none ++ ts.map (fun t => some t.c6))
        = (ts, List.replicate (n + ts.length) none) := by
  intro ts
  induction ts with
  | nil => intro n hm; simp [trackPass]
  | cons t ts ih =>
    intro n hm
    have hbest : bestObs (c6pos t.c6)
        (List.replicate n none ++ some t.c6 :: ts.map (fun t => some t.c6))
        = some (n, 0, t.c6) := by
      rw [bestObs_replicate_none, bestObs_cons_zero _ _ _ (dist2_self _)]
      simp
    simp only [List.map_cons, trackPass, hbest]
    rw [if_pos h, set_replicate_mid,
      ih (n + 1) (fun t' ht' => hm t' (List.mem_cons_of_mem _ ht'))]
    have ht : (⟨t.ID, t.c6, 0⟩ : Track) = t := by
      have h0 := hm t (List.mem_cons_self _ _)
      cases t
      simp_all
    rw [ht]
    have hn : n + 1 + ts.length = n + (ts.length + 1) := by omega
    rw [hn]
    rfl

lemma spawnTracks_replicate (nid : Nat) :
    ∀ k, spawnTracks nid (List.replicate k none) = ([], nid) := by
  intro k
  induction k with
  | zero => rfl
  | succ k ih => simpa [List.replicate_succ, spawnTracks] using ih

/-- The spec-modelled tracker is idempotent on a converged state: replaying
each live track's own observation creates no tracks, allocates no id, and
returns the unchanged mapping. -/
lemma ctUpdate_fixed (cfg : TrackerCfg) (h : 0 < cfg.thresh2) (s : CTState)
    (hm : ∀ t ∈ s.tracks, t.missed = 0) (fps : ℚ) :
    ctUpdate cfg s (s.tracks.map Track.c6) fps
      = (s, s.tracks.map (fun t => (t.ID, t.c6))) := by
  have hmap : (s.tracks.map Track.c6).map some
      = s.tracks.map (fun t => some t.c6) := by
    simp [List.map_map, Function.comp]
  have hfix := trackPass_fixed cfg.thresh2 (tolFrames cfg fps) h s.tracks 0 hm
  simp only [List.replicate, List.nil_append, Nat.zero_add] at hfix
  unfold ctUpdate
  rw [hmap, hfix]
  simp [spawnTracks_replicate]

/-- The three class names `AnnotationPainter.__init__` routes on (lines
26-30): `'Annotation'` → `KeypointPainter`, `'AnnotationDet'` →
`DetectionPainter`, `'AnnotationCrowd'` → `CrowdPainter`. -/
inductive PaintClass where
  | plain
  | det
  | crowd
deriving DecidableEq, Repr

/-- The Python errors the dispatch of `AnnotationPainter.annotations` can
raise. -/
inductive PyError where
  | typeError
  | attributeError
deriving DecidableEq, Repr

/-- The call `self.painters[classname].annotations(ax, anns, ID, fps, ...)`
(lines 44-46) for one class group, embedded with Python's call semantics:

* `'Annotation'` reaches `KeypointPainter.annotations(self, ax, annotations,
  stream, fps, *...)` (line 356), whose positional parameters match the four
  positional arguments; the call runs `annotationsStep` and returns the new
  `self.fallcount`.
* `'AnnotationDet'` reaches `DetectionPainter.annotations(self, ax,
  annotations, *...)` (lines 55-56), which accepts only two positional
  arguments after `self`; the extra positional `ID` and `fps` make Python
  raise `TypeError` before the body runs.
* `'AnnotationCrowd'` reaches `CrowdPainter` (lines 119-133), which defines
  no `annotations` method at all, so the attribute lookup raises
  `AttributeError`. -/
def paintOne (persons : Persons) (fallen : Fallen) (stream : Nat)
    (s : PainterState) : PaintClass → Except PyError (Option Nat × PainterState)
  | PaintClass.plain =>
    let r := annotationsStep persons fallen stream s
    Except.ok (some r.1.fallcount, r.1)
  | PaintClass.det => Except.error PyError.typeError
  | PaintClass.crowd => Except.error PyError.attributeError

/-- The `for classname, i_anns in by_classname.items()` loop of
`AnnotationPainter.annotations` (lines 39-46): each class group's painter is
called in turn, `fallcount` being overwritten by each call's return value; a
raised error aborts the loop and propagates. -/
def paintLoop (persons : Persons) (fallen : Fallen) (stream : Nat) :
    List PaintClass → Option Nat → PainterState →
      Except PyError (Option Nat × PainterState)
  | [], fc, s => Except.ok (fc, s)
  | c :: cs, _, s =>
    match paintOne persons fallen stream s c with
    | Except.error e => Except.error e
    | Except.ok (fc', s') => paintLoop persons fallen stream cs fc' s'

/-- The first-occurrence order of the class names of the input annotations:
the key order of the `defaultdict` built on lines 35-37. -/
def firstOccur : List PaintClass → List PaintClass
  | [] => []
  | c :: rest => c :: firstOccur (rest.filter (fun x => x ≠ c))
termination_by l => l.length
decreasing_by
  exact Nat.lt_succ_of_le (List.length_filter_le _ _)

/-- `AnnotationPainter.annotations(ax, annotations, ID, fps, ...)` (lines
32-48), with the per-frame collaborator outputs parametrised as in
`annotationsStep`: `fallcount` starts as `None` (line 34), the annotations
are grouped by class name in first-occurrence order (lines 35-37), and each
group's painter is invoked (lines 39-46). -/
def apAnnotations (persons : Persons) (fallen : Fallen) (stream : Nat)
    (anns : List PaintClass) (s : PainterState) :
    Except PyError (Option Nat × PainterState) :=
  paintLoop persons fallen stream (firstOccur anns) none s

lemma mem_firstOccur_of_mem :
    ∀ (l : List PaintClass) (x : PaintClass), x ∈ l → x ∈ firstOccur l := by
  intro l
  induction l using firstOccur.induct with
  | case1 => intro x hx; simp at hx
  | case2 c rest ih =>
    intro x hx
    rw [firstOccur]
    rcases List.mem_cons.mp hx with rfl | hx'
    · exact List.mem_cons_self _ _
    · by_cases hxc : x = c
      · exact hxc ▸ List.mem_cons_self _ _
      · exact List.mem_cons_of_mem _
          (ih x (List.mem_filter.mpr ⟨hx', by simp [hxc]⟩))

lemma paintLoop_error_of_bad (persons : Persons) (fallen : Fallen)
    (stream : Nat) :
    ∀ (cs : List PaintClass) (fc : Option Nat) (s : PainterState),
      (∃ c ∈ cs, c ≠ PaintClass.plain) →
        ∃ e, paintLoop persons fallen stream cs fc s = Except.error e := by
  intro cs
  induction cs with
  | nil => intro fc s h; simp at h
  | cons c rest ih =>
    intro fc s h
    match c with
    | PaintClass.det => exact ⟨PyError.typeError, rfl⟩
    | PaintClass.crowd => exact ⟨PyError.attributeError, rfl⟩
    | PaintClass.plain =>
      obtain ⟨c', hc', hne⟩ := h
      rcases List.mem_cons.mp hc' with rfl | hmem
      · exact absurd rfl hne
      · exact ih _ _ ⟨c', hmem, hne⟩

lemma step_state (persons : Persons) (fallen : Fallen) (stream : Nat)
    (s : PainterState) :
    (annotationsStep persons fallen stream s).1
      = { framecount := s.framecount + 1
          fallcount := s.fallcount
            + (newlyFallenIds (s.prevFallen.map Prod.fst) fallen).length
          persons := persons
          fallen := fallen
          prevFallen := fallen } := by
  simp [annotationsStep, dedupLoop_eq]

lemma step_trace (persons : Persons) (fallen : Fallen) (stream : Nat)
    (s : PainterState) :
    (annotationsStep persons fallen stream s).2
      = { classifierFrame := s.framecount
          writes := snapshotCalls stream s.fallcount
            (newlyFallenIds (s.prevFallen.map Prod.fst) fallen) } := by
  simp [annotationsStep, dedupLoop_eq]

lemma run_fallcount_mono (stream : Nat) :
    ∀ (frames : List (Persons × Fallen)) (s0 : PainterState),
      s0.fallcount ≤ (annotationsRun stream frames s0).1.fallcount := by
  intro frames
  induction frames with
  | nil => intro s0; simp [annotationsRun]
  | cons pf rest ih =>
    intro s0
    have h1 : s0.fallcount ≤ (annotationsStep pf.1 pf.2 stream s0).1.fallcount := by
      rw [step_state]
      exact Nat.le_add_right _ _
    exact le_trans h1 (by simpa [annotationsRun] using ih (annotationsStep pf.1 pf.2 stream s0).1)

lemma newly_length_card (prevKeys : List Nat) (fallen : Fallen)
    (h : (fallen.map Prod.fst).Nodup) :
    (newlyFallenIds prevKeys fallen).length
      = ((fallen.map Prod.fst).toFinset \ prevKeys.toFinset).card := by
  have h2 : (newlyFallenIds prevKeys fallen).Nodup := h.filter _
  rw [← List.toFinset_card_of_nodup h2]
  congr 1
  ext a
  simp [newlyFallenIds, Finset.mem_sdiff, List.mem_filter]

/-- C1: across any sequence of frames the fall counter is monotonically
non-decreasing, and each `KeypointPainter.annotations` call increases it by
exactly the number of track ids in the current fallen-set that were absent
from the previous frame's fallen-set. -/
theorem fall_counter_nondecreasing_delta
    (persons : Persons) (fallen : Fallen) (stream : Nat) (s : PainterState)
    (hnd : (fallen.map Prod.fst).Nodup) :
    (annotationsStep persons fallen stream s).1.fallcount
      = s.fallcount
        + ((fallen.map Prod.fst).toFinset
            \ (s.prevFallen.map Prod.fst).toFinset).card
    ∧ ∀ (frames : List (Persons × Fallen)) (s0 : PainterState),
        s0.fallcount ≤ (annotationsRun stream frames s0).1.fallcount := by
  constructor
  · rw [step_state]
    simp [newly_length_card _ _ hnd]
  · exact fun frames s0 => run_fallcount_mono stream frames s0

/-- Closed instance of `fall_counter_nondecreasing_delta`: one id, id `1`,
newly fallen from the initial state. -/
theorem fall_counter_nondecreasing_delta_witness :
    ((([((1 : Nat), ((0 : ℚ), (0 : ℚ), (0 : ℚ), (0 : ℚ)))] : Fallen).map
        Prod.fst).Nodup)
    ∧ ((annotationsStep [] [(1, (0, 0, 0, 0))] 0 initPainter).1.fallcount
        = initPainter.fallcount
          + ((([((1 : Nat), ((0 : ℚ), (0 : ℚ), (0 : ℚ), (0 : ℚ)))] : Fallen).map
              Prod.fst).toFinset
              \ (initPainter.prevFallen.map Prod.fst).toFinset).card
      ∧ ∀ (frames : List (Persons × Fallen)) (s0 : PainterState),
          s0.fallcount ≤ (annotationsRun 0 frames s0).1.fallcount) :=
  ⟨by decide,
   fall_counter_nondecreasing_delta [] [(1, (0, 0, 0, 0))] 0 initPainter
     (by decide)⟩

lemma newly_subset_fallen (prevKeys : List Nat) (fallen : Fallen) (ID : Nat)
    (h : ID ∈ newlyFallenIds prevKeys fallen) : ID ∈ fallen.map Prod.fst :=
  (List.mem_filter.mp h).1

lemma newly_not_mem_prev (prevKeys : List Nat) (fallen : Fallen) (ID : Nat)
    (h : ID ∈ newlyFallenIds prevKeys fallen) : ID ∉ prevKeys := by
  have := (List.mem_filter.mp h).2
  simpa using this

/-- C2: per `KeypointPainter.annotations` call, `imgwriter.write` is invoked
exactly once per id newly entering the fallen-set, in iteration order; each
invocation carries the counter value just after that id's increment (the
already-updated counter); ids that stay fallen, leave the fallen state, or
were never fallen trigger no write. -/
theorem snapshot_sink_once_per_transition
    (persons : Persons) (fallen : Fallen) (stream : Nat) (s : PainterState)
    (hnd : (fallen.map Prod.fst).Nodup) :
    ((annotationsStep persons fallen stream s).2.writes.map
        WriteEvent.triggerId
      = newlyFallenIds (s.prevFallen.map Prod.fst) fallen)
    ∧ ((annotationsStep persons fallen stream s).2.writes.map WriteEvent.seq
      = List.range' (s.fallcount + 1)
          (newlyFallenIds (s.prevFallen.map Prod.fst) fallen).length)
    ∧ (∀ ID ∈ newlyFallenIds (s.prevFallen.map Prod.fst) fallen,
        ((annotationsStep persons fallen stream s).2.writes.map
            WriteEvent.triggerId).count ID = 1)
    ∧ (∀ ID : Nat,
        ID ∈ s.prevFallen.map Prod.fst ∨ ID ∉ fallen.map Prod.fst →
          ((annotationsStep persons fallen stream s).2.writes.map
              WriteEvent.triggerId).count ID = 0) := by
  have hw : (annotationsStep persons fallen stream s).2.writes.map
      WriteEvent.triggerId = newlyFallenIds (s.prevFallen.map Prod.fst) fallen := by
    rw [step_trace]
    exact snapshotCalls_map_triggerId stream s.fallcount _
  refine ⟨hw, ?_, ?_, ?_⟩
  · rw [step_trace]
    exact snapshotCalls_map_seq stream s.fallcount _
  · intro ID hID
    rw [hw]
    exact List.count_eq_one_of_mem (hnd.filter _) hID
  · intro ID hID
    rw [hw]
    refine List.count_eq_zero.mpr (fun hmem => ?_)
    rcases hID with hprev | hfall
    · exact newly_not_mem_prev _ _ _ hmem hprev
    · exact hfall (newly_subset_fallen _ _ _ hmem)

/-- Closed instance of `snapshot_sink_once_per_transition`: id `2` newly
fallen on a painter whose previous fallen-set holds id `7`. -/
theorem snapshot_sink_once_per_transition_witness :
    ((([((2 : Nat), ((0 : ℚ), (0 : ℚ), (3 : ℚ), (1 : ℚ)))] : Fallen).map
        Prod.fst).Nodup)
    ∧ (((annotationsStep [] [(2, (0, 0, 3, 1))] 4
          ⟨1, 5, [], [], [(7, (0, 0, 1, 1))]⟩).2.writes.map
            WriteEvent.triggerId
        = newlyFallenIds
            ((⟨1, 5, [], [], [(7, (0, 0, 1, 1))]⟩ : PainterState).prevFallen.map
              Prod.fst)
            [(2, (0, 0, 3, 1))])
      ∧ ((annotationsStep [] [(2, (0, 0, 3, 1))] 4
            ⟨1, 5, [], [], [(7, (0, 0, 1, 1))]⟩).2.writes.map WriteEvent.seq
        = List.range'
            ((⟨1, 5, [], [], [(7, (0, 0, 1, 1))]⟩ : PainterState).fallcount + 1)
            (newlyFallenIds
              ((⟨1, 5, [], [], [(7, (0, 0, 1, 1))]⟩ : PainterState).prevFallen.map
                Prod.fst)
              [(2, (0, 0, 3, 1))]).length)
      ∧ (∀ ID ∈ newlyFallenIds
            ((⟨1, 5, [], [], [(7, (0, 0, 1, 1))]⟩ : PainterState).prevFallen.map
              Prod.fst)
            [(2, (0, 0, 3, 1))],
          ((annotationsStep [] [(2, (0, 0, 3, 1))] 4
              ⟨1, 5, [], [], [(7, (0, 0, 1, 1))]⟩).2.writes.map
                WriteEvent.triggerId).count ID = 1)
      ∧ (∀ ID : Nat,
          ID ∈ ((⟨1, 5, [], [], [(7, (0, 0, 1, 1))]⟩ : PainterState).prevFallen.map
              Prod.fst)
            ∨ ID ∉ ([((2 : Nat), ((0 : ℚ), (0 : ℚ), (3 : ℚ), (1 : ℚ)))] : Fallen).map
              Prod.fst →
            ((annotationsStep [] [(2, (0, 0, 3, 1))] 4
                ⟨1, 5, [], [], [(7, (0, 0, 1, 1))]⟩).2.writes.map
                  WriteEvent.triggerId).count ID = 0)) :=
  ⟨by decide,
   snapshot_sink_once_per_transition [] [(2, (0, 0, 3, 1))] 4
     ⟨1, 5, [], [], [(7, (0, 0, 1, 1))]⟩ (by decide)⟩

lemma annotationsRun_append (stream : Nat) :
    ∀ (l1 l2 : List (Persons × Fallen)) (s : PainterState),
      (annotationsRun stream (l1 ++ l2) s).1
        = (annotationsRun stream l2 (annotationsRun stream l1 s).1).1 := by
  intro l1
  induction l1 with
  | nil => intro l2 s; simp [annotationsRun]
  | cons pf rest ih => intro l2 s; simp [annotationsRun, ih]

/-- C3: the previous-fallen-set compared against is exactly the fallen-set of
the immediately preceding `annotations` call; both sets start empty at
construction (every id starts not-fallen); an id absent from the current
fallen-set is absent from both stored sets after the call and triggers
neither a counter increment nor a snapshot. -/
theorem prev_fallen_is_previous_frame
    (persons : Persons) (fallen : Fallen) (stream : Nat) (s : PainterState) :
    initPainter.prevFallen = []
    ∧ initPainter.fallen = []
    ∧ (annotationsStep persons fallen stream s).1.prevFallen = fallen
    ∧ (∀ (pre : List (Persons × Fallen)) (pf : Persons × Fallen)
          (s0 : PainterState),
        (annotationsRun stream (pre ++ [pf]) s0).1.prevFallen = pf.2)
    ∧ (∀ ID : Nat, ID ∉ fallen.map Prod.fst →
        ID ∉ (annotationsStep persons fallen stream s).1.prevFallen.map Prod.fst
        ∧ ID ∉ (annotationsStep persons fallen stream s).1.fallen.map Prod.fst
        ∧ ID ∉ newlyFallenIds (s.prevFallen.map Prod.fst) fallen
        ∧ ((annotationsStep persons fallen stream s).2.writes.map
            WriteEvent.triggerId).count ID = 0) := by
  refine ⟨rfl, rfl, by rw [step_state], ?_, ?_⟩
  · intro pre pf s0
    rw [annotationsRun_append]
    simp [annotationsRun, step_state]
  · intro ID hID
    have hnew : ID ∉ newlyFallenIds (s.prevFallen.map Prod.fst) fallen :=
      fun hmem => hID (newly_subset_fallen _ _ _ hmem)
    refine ⟨by rw [step_state]; exact hID, by rw [step_state]; exact hID, hnew, ?_⟩
    rw [step_trace, snapshotCalls_map_triggerId]
    exact List.count_eq_zero.mpr hnew

lemma step_writes_count (persons : Persons) (fallen : Fallen) (stream : Nat)
    (s : PainterState) (ID : Nat) :
    ((annotationsStep persons fallen stream s).2.writes.map
        WriteEvent.triggerId).count ID
      = (newlyFallenIds (s.prevFallen.map Prod.fst) fallen).count ID := by
  rw [step_trace, snapshotCalls_map_triggerId]

lemma newly_count_one (prevKeys : List Nat) (fallen : Fallen) (ID : Nat)
    (hnd : (fallen.map Prod.fst).Nodup) (hmem : ID ∈ fallen.map Prod.fst)
    (hprev : ID ∉ prevKeys) :
    (newlyFallenIds prevKeys fallen).count ID = 1 :=
  List.count_eq_one_of_mem (hnd.filter _)
    (List.mem_filter.mpr ⟨hmem, by simpa using hprev⟩)

lemma newly_count_zero (prevKeys : List Nat) (fallen : Fallen) (ID : Nat)
    (hmem : ID ∉ fallen.map Prod.fst) :
    (newlyFallenIds prevKeys fallen).count ID = 0 :=
  List.count_eq_zero.mpr (fun h => hmem (newly_subset_fallen _ _ _ h))

/-- C4: an id classified fallen, then not-fallen, then fallen again is
counted twice — its snapshot fires on each not-fallen-to-fallen transition —
while fallen-to-fallen, fallen-to-not-fallen and not-fallen-to-not-fallen
transitions trigger no write for it and, when every fallen id is a stale one,
no counter change at all. -/
theorem flap_double_count
    (stream : Nat) (s0 : PainterState) (ID : Nat)
    (p1 p2 p3 : Persons) (F1 F2 F3 : Fallen)
    (h0 : ID ∉ s0.prevFallen.map Prod.fst)
    (h1 : ID ∈ F1.map Prod.fst) (hnd1 : (F1.map Prod.fst).Nodup)
    (h2 : ID ∉ F2.map Prod.fst)
    (h3 : ID ∈ F3.map Prod.fst) (hnd3 : (F3.map Prod.fst).Nodup) :
    ((((annotationsRun stream [(p1, F1), (p2, F2), (p3, F3)] s0).2.map
        StepTrace.writes).flatten.map WriteEvent.triggerId).count ID = 2)
    ∧ (∀ b1 b3 : Box4,
        (annotationsRun stream [(p1, [(ID, b1)]), (p2, []), (p3, [(ID, b3)])]
            s0).1.fallcount = s0.fallcount + 2
        ∧ ((annotationsRun stream
            [(p1, [(ID, b1)]), (p2, []), (p3, [(ID, b3)])] s0).2.map
              StepTrace.writes).flatten.length = 2)
    ∧ (∀ (persons : Persons) (fallen : Fallen) (s : PainterState),
        ID ∈ s.prevFallen.map Prod.fst →
          ((annotationsStep persons fallen stream s).2.writes.map
              WriteEvent.triggerId).count ID = 0)
    ∧ (∀ (persons : Persons) (fallen : Fallen) (s : PainterState),
        ID ∉ fallen.map Prod.fst →
          ((annotationsStep persons fallen stream s).2.writes.map
              WriteEvent.triggerId).count ID = 0)
    ∧ (∀ (persons : Persons) (fallen : Fallen) (s : PainterState),
        (∀ p ∈ fallen, p.1 ∈ s.prevFallen.map Prod.fst) →
          (annotationsStep persons fallen stream s).1.fallcount
            = s.fallcount) := by
  refine ⟨?_, ?_, ?_, ?_, ?_⟩
  · simp only [annotationsRun, step_state, step_trace, List.map_cons,
      List.map_nil, List.flatten, List.append_nil, List.map_append,
      List.count_append, snapshotCalls_map_triggerId]
    rw [newly_count_one _ _ _ hnd1 h1 h0,
      newly_count_zero _ _ _ h2,
      newly_count_one _ _ _ hnd3 h3 h2]
  · intro b1 b3
    constructor
    · simp only [annotationsRun, step_state]
      simp [newlyFallenIds, h0, h2]
    · simp only [annotationsRun, step_state, step_trace, List.map_cons,
        List.map_nil, List.flatten, List.append_nil, List.length_append]
      simp [newlyFallenIds, snapshotCalls, h0, h2]
  · intro persons fallen s hs
    rw [step_writes_count]
    exact List.count_eq_zero.mpr (fun h => newly_not_mem_prev _ _ _ h hs)
  · intro persons fallen s hs
    rw [step_writes_count]
    exact newly_count_zero _ _ _ hs
  · intro persons fallen s hall
    rw [step_state]
    have : newlyFallenIds (s.prevFallen.map Prod.fst) fallen = [] := by
      simp only [newlyFallenIds, List.filter_eq_nil_iff]
      intro a ha
      obtain ⟨p, hp, rfl⟩ := List.mem_map.mp ha
      simp [hall p hp]
    simp [this]

/-- Closed instance of `flap_double_count`: id `1` fallen on frames one and
three, not fallen on frame two, starting from the initial painter. -/
theorem flap_double_count_witness :
    ((1 : Nat) ∉ initPainter.prevFallen.map Prod.fst)
    ∧ ((1 : Nat) ∈ ([((1 : Nat), ((0 : ℚ), (0 : ℚ), (0 : ℚ), (0 : ℚ)))] :
        Fallen).map Prod.fst)
    ∧ ((((annotationsRun 0
          [([], [(1, (0, 0, 0, 0))]), ([], []), ([], [(1, (0, 0, 0, 0))])]
          initPainter).2.map StepTrace.writes).flatten.map
            WriteEvent.triggerId).count 1 = 2) :=
  ⟨by decide, by decide,
   (flap_double_count 0 initPainter 1 [] [] [] [(1, (0, 0, 0, 0))] []
     [(1, (0, 0, 0, 0))] (by decide) (by decide) (by decide) (by decide)
     (by decide) (by decide)).1⟩

lemma dedupLoopSink_eq (sinkOk : Nat → Nat → Bool) (stream : Nat)
    (prevKeys : List Nat) :
    ∀ (fallen : Fallen) (fc : Nat),
      (dedupLoopSink sinkOk stream prevKeys fallen fc).1
          = (dedupLoop stream prevKeys fallen fc).1
        ∧ (dedupLoopSink sinkOk stream prevKeys fallen fc).2.1
          = (dedupLoop stream prevKeys fallen fc).2 := by
  intro fallen
  induction fallen with
  | nil => intro fc; exact ⟨rfl, rfl⟩
  | cons p rest ih =>
    intro fc
    obtain ⟨ID, b⟩ := p
    by_cases h : ID ∈ prevKeys
    · simpa [dedupLoopSink, dedupLoop, h] using ih fc
    · have := ih (fc + 1)
      simp [dedupLoopSink, dedupLoop, h, this.1, this.2]

/-- C5: a snapshot-sink write failure never reaches the per-frame pipeline
call: whatever subset of the write calls fails, the painter state (the
committed counter increments included) and the emitted write sequence are
identical to the failure-free run — in particular `prev_fallen` is still
recorded and no counter increment is rolled back. -/
theorem sink_failure_harmless
    (sinkOk : Nat → Nat → Bool) (persons : Persons) (fallen : Fallen)
    (stream : Nat) (s : PainterState) :
    (annotationsStepSink sinkOk persons fallen stream s).1
      = (annotationsStep persons fallen stream s).1
    ∧ (annotationsStepSink sinkOk persons fallen stream s).2.1
      = (annotationsStep persons fallen stream s).2 := by
  have h := dedupLoopSink_eq sinkOk stream (s.prevFallen.map Prod.fst) fallen
    s.fallcount
  constructor
  · simp [annotationsStepSink, annotationsStep, h.1]
  · simp [annotationsStepSink, annotationsStep, h.1, h.2]

lemma newly_of_self (fallen : Fallen) :
    newlyFallenIds (fallen.map Prod.fst) fallen = [] := by
  simp only [newlyFallenIds, List.filter_eq_nil_iff]
  intro a ha
  simp [ha]

/-- C6: replaying the identical single-frame input against a converged
tracker/classifier pair is idempotent.  For the spec-modelled tracker:
feeding each live track its own last observation leaves the tracker state,
the allocated-id counter and the emitted mapping unchanged (no new track
creations).  For the painter, when the classifier output equals the previous
frame's fallen-set the counter does not change, no snapshot is written, and
the fallen-set is the same as the previous frame's. -/
theorem replay_idempotent
    (cfg : TrackerCfg) (ct : CTState) (fps : ℚ) (persons : Persons)
    (stream : Nat) (s : PainterState)
    (hth : 0 < cfg.thresh2) (hm : ∀ t ∈ ct.tracks, t.missed = 0) :
    (ctUpdate cfg ct (ct.tracks.map Track.c6) fps).1 = ct
    ∧ (ctUpdate cfg ct (ct.tracks.map Track.c6) fps).1.nextId = ct.nextId
    ∧ (ctUpdate cfg ct (ct.tracks.map Track.c6) fps).2
        = ct.tracks.map (fun t => (t.ID, t.c6))
    ∧ (annotationsStep persons s.prevFallen stream s).1.fallcount = s.fallcount
    ∧ (annotationsStep persons s.prevFallen stream s).2.writes = []
    ∧ (annotationsStep persons s.prevFallen stream s).1.fallen
        = s.prevFallen := by
  have hct := ctUpdate_fixed cfg hth ct hm fps
  refine ⟨by rw [hct], by rw [hct], by rw [hct], ?_, ?_, by rw [step_state]⟩
  · rw [step_state]
    simp [newly_of_self]
  · rw [step_trace]
    simp [newly_of_self, snapshotCalls]

/-- Closed instance of `replay_idempotent`: one live track with id `0` at
centroid `(1, 1)`, threshold `1`, replayed against a painter whose previous
fallen-set holds id `0`. -/
theorem replay_idempotent_witness :
    ((0 : ℚ) < (⟨1, 1⟩ : TrackerCfg).thresh2)
    ∧ (∀ t ∈ (⟨[⟨0, (1, 1, 0, 0, 2, 2), 0⟩], 1⟩ : CTState).tracks,
        t.missed = 0)
    ∧ ((ctUpdate ⟨1, 1⟩ ⟨[⟨0, (1, 1, 0, 0, 2, 2), 0⟩], 1⟩
          ((⟨[⟨0, (1, 1, 0, 0, 2, 2), 0⟩], 1⟩ : CTState).tracks.map Track.c6)
          30).1
        = ⟨[⟨0, (1, 1, 0, 0, 2, 2), 0⟩], 1⟩
      ∧ (annotationsStep []
          ((⟨2, 7, [], [], [(0, (0, 0, 2, 2))]⟩ : PainterState).prevFallen) 0
          ⟨2, 7, [], [], [(0, (0, 0, 2, 2))]⟩).1.fallcount
        = (⟨2, 7, [], [], [(0, (0, 0, 2, 2))]⟩ : PainterState).fallcount
      ∧ (annotationsStep []
          ((⟨2, 7, [], [], [(0, (0, 0, 2, 2))]⟩ : PainterState).prevFallen) 0
          ⟨2, 7, [], [], [(0, (0, 0, 2, 2))]⟩).2.writes = []) :=
  ⟨by decide, by decide,
   (replay_idempotent ⟨1, 1⟩ ⟨[⟨0, (1, 1, 0, 0, 2, 2), 0⟩], 1⟩ 30 [] 0
      ⟨2, 7, [], [], [(0, (0, 0, 2, 2))]⟩ (by decide) (by decide)).1,
   (replay_idempotent ⟨1, 1⟩ ⟨[⟨0, (1, 1, 0, 0, 2, 2), 0⟩], 1⟩ 30 [] 0
      ⟨2, 7, [], [], [(0, (0, 0, 2, 2))]⟩ (by decide) (by decide)).2.2.2.1,
   (replay_idempotent ⟨1, 1⟩ ⟨[⟨0, (1, 1, 0, 0, 2, 2), 0⟩], 1⟩ 30 [] 0
      ⟨2, 7, [], [], [(0, (0, 0, 2, 2))]⟩ (by decide) (by decide)).2.2.2.2.1⟩

lemma midCoord_zero : midCoord 0 0 = 0 := by
  simp [midCoord]

/-- C7: an annotation whose shoulder keypoints (rows 5 and 6) are both zero —
the shoulder midpoint cannot be computed — contributes no centroid: it is
silently absent from the observation list handed to `ct.update`, while the
annotations before and after it are processed unchanged. -/
theorem malformed_observation_dropped
    (xyScale : ℚ) (a : Ann) (pre post : List Ann)
    (hx5 : (a.kps 5).1 = 0) ( _hy5 : (a.kps 5).2.1 = 0)
    (hx6 : (a.kps 6).1 = 0) ( _hy6 : (a.kps 6).2.1 = 0) :
    skeletonCentroid xyScale a = none
    ∧ collectCentroids xyScale (pre ++ a :: post)
        = collectCentroids xyScale pre ++ collectCentroids xyScale post := by
  have hnone : skeletonCentroid xyScale a = none := by
    unfold skeletonCentroid
    by_cases hv : ∃ i, 0 < (fun i => (a.kps i).2.2) i
    · simp only [hv, not_true_eq_false, if_false]
      have hmx : midCoord ((a.kps 5).1 * xyScale) ((a.kps 6).1 * xyScale) = 0 := by
        rw [hx5, hx6, zero_mul, midCoord_zero]
      simp [hmx]
    · simp [hv]
  refine ⟨hnone, ?_⟩
  simp [collectCentroids, List.filterMap_append, List.filterMap_cons, hnone]

/-- Closed instance of `malformed_observation_dropped`: a single annotation
with zero shoulders and one visible keypoint, between two well-formed
annotations. -/
theorem malformed_observation_dropped_witness :
    (((⟨fun _ => (0, 0, 1), (0, 0, 10, 10)⟩ : Ann).kps 5).1 = 0)
    ∧ (skeletonCentroid 1 ⟨fun _ => (0, 0, 1), (0, 0, 10, 10)⟩ = none
      ∧ collectCentroids 1
          ([⟨fun _ => (3, 4, 1), (0, 0, 10, 10)⟩]
            ++ (⟨fun _ => (0, 0, 1), (0, 0, 10, 10)⟩ : Ann)
              :: [⟨fun _ => (5, 6, 1), (0, 0, 10, 10)⟩])
        = collectCentroids 1 [⟨fun _ => (3, 4, 1), (0, 0, 10, 10)⟩]
          ++ collectCentroids 1 [⟨fun _ => (5, 6, 1), (0, 0, 10, 10)⟩]) :=
  ⟨rfl,
   malformed_observation_dropped 1 ⟨fun _ => (0, 0, 1), (0, 0, 10, 10)⟩
     [⟨fun _ => (3, 4, 1), (0, 0, 10, 10)⟩]
     [⟨fun _ => (5, 6, 1), (0, 0, 10, 10)⟩] rfl rfl rfl rfl⟩

/-- C8: a per-frame call with `fps ≤ 0` is rejected before any pipeline state
mutation — the guarded call returns the configuration error — while a
positive `fps` runs the normal `annotations` step. -/
theorem fps_nonpositive_rejected
    (persons : Persons) (fallen : Fallen) (stream : Nat) (fps : ℚ)
    (s : PainterState) :
    (fps ≤ 0 → annotationsGuarded persons fallen stream fps s
        = Except.error FpsError.nonPositive)
    ∧ (0 < fps → annotationsGuarded persons fallen stream fps s
        = Except.ok (annotationsStep persons fallen stream s)) := by
  constructor
  · intro h
    simp [annotationsGuarded, h]
  · intro h
    simp [annotationsGuarded, not_le.mpr h]

lemma run_classifierFrames (stream : Nat) :
    ∀ (frames : List (Persons × Fallen)) (s0 : PainterState),
      (annotationsRun stream frames s0).2.map StepTrace.classifierFrame
        = List.range' s0.framecount frames.length := by
  intro frames
  induction frames with
  | nil => intro s0; simp [annotationsRun]
  | cons pf rest ih =>
    intro s0
    have hframe : (annotationsStep pf.1 pf.2 stream s0).1.framecount
        = s0.framecount + 1 := by rw [step_state]
    simp only [annotationsRun, List.map_cons, step_trace, List.length_cons,
      List.range'_succ]
    rw [ih (annotationsStep pf.1 pf.2 stream s0).1, hframe]

/-- C9: the frame index handed to `falls.update` starts at 0 at construction
and is the pre-increment `framecount`, which every `annotations` call —
whatever its inputs — advances by exactly 1, so over a painter's lifetime the
classifier sees `0, 1, 2, ...`. -/
theorem frame_index_sequence
    (persons : Persons) (fallen : Fallen) (stream : Nat) (s : PainterState)
    (frames : List (Persons × Fallen)) :
    initPainter.framecount = 0
    ∧ (annotationsStep persons fallen stream s).1.framecount
        = s.framecount + 1
    ∧ (annotationsStep persons fallen stream s).2.classifierFrame
        = s.framecount
    ∧ (annotationsRun stream frames initPainter).2.map
        StepTrace.classifierFrame = List.range frames.length := by
  refine ⟨rfl, by rw [step_state], by rw [step_trace], ?_⟩
  rw [run_classifierFrames stream frames initPainter,
    List.range_eq_range' frames.length]
  rfl

/-- C10: `AnnotationPainter.annotations` raises on any input holding an
annotation whose class is not `'Annotation'` — `'AnnotationDet'` dies on the
extra positional `ID`/`fps` arguments, `'AnnotationCrowd'` on the missing
`annotations` method — while a non-empty all-`'Annotation'` input completes
and returns the keypoint painter's fall count. -/
theorem non_keypoint_class_errors
    (persons : Persons) (fallen : Fallen) (stream : Nat)
    (anns : List PaintClass) (s : PainterState) :
    ((∃ c ∈ anns, c ≠ PaintClass.plain) →
      ∃ e, apAnnotations persons fallen stream anns s = Except.error e)
    ∧ (anns ≠ [] → (∀ c ∈ anns, c = PaintClass.plain) →
      apAnnotations persons fallen stream anns s
        = Except.ok
            (some (annotationsStep persons fallen stream s).1.fallcount,
              (annotationsStep persons fallen stream s).1)) := by
  constructor
  · intro ⟨c, hc, hne⟩
    exact paintLoop_error_of_bad persons fallen stream (firstOccur anns) none s
      ⟨c, mem_firstOccur_of_mem anns c hc, hne⟩
  · intro hne hall
    match anns with
    | [] => exact absurd rfl hne
    | c :: rest =>
      have hc : c = PaintClass.plain := hall c (List.mem_cons_self _ _)
      subst hc
      have hfilter : rest.filter (fun x => x ≠ PaintClass.plain) = [] := by
        rw [List.filter_eq_nil_iff]
        intro a ha
        simp [hall a (List.mem_cons_of_mem _ ha)]
      have hfo : firstOccur (PaintClass.plain :: rest) = [PaintClass.plain] := by
        rw [firstOccur, hfilter, firstOccur]
      rw [apAnnotations, hfo]
      rfl
